import Mathlib

/-!
Verification of the text-processing pipeline examples of the repository
(crates `ocp_05` and `ocp_07`).

Both crates share the same data model:
- `EditorContent` is a struct holding a single `String` field `content`;
- the trait `Processing` has two methods, `name(&self) -> &str` and
  `apply(&mut self, context: &mut EditorContent)`.

Every implementor of `Processing` in the repository (`LowerCase` and
`SpellChecker` in each of the two crates) is a stateless unit struct, so a
step's `apply` never changes the step itself; it is embedded here as a pure
context transformer `EditorContent → EditorContent`, and `name` as a
constant `String` field.

`ocp_05` is the dynamic-dispatch variant: `TxtProcessor` holds a
`Vec<Box<dyn Processing>>`, `register_processing` pushes onto it, and `run`
loops over the vector applying each step to the shared content.

`ocp_07` is the static-dispatch variant: the trait `ToolChain` is
implemented for any single `Processing` (base case) and for any pair
`(Head, Tail)` with `Head: Processing` and `Tail: ToolChain` (recursive
case); `TxTProcessor<T: ToolChain>::run` delegates to the chain's `apply`.
-/

/-- Embeds `pub struct EditorContent { pub content: String }`, shared
verbatim by `src/ocp_05/src/main.rs` and `src/ocp_07/src/main.rs`. -/
structure EditorContent where
  content : String
deriving DecidableEq, Repr

/-- Embeds the trait `Processing { fn name(&self) -> &str; fn apply(&mut self, context: &mut EditorContent); }`.
All implementors in the repository are stateless unit structs, so `apply`
is a pure function on the context and `name` a constant string. -/
structure Processing where
  name : String
  apply : EditorContent → EditorContent

/-- Spec-side reference semantics: manually applying each step's `apply`
one at a time, left to right, in the order the list gives. -/
def applyEach (steps : List Processing) (c : EditorContent) : EditorContent :=
  steps.foldl (fun ctx s => s.apply ctx) c

namespace Ocp05

/-- Embeds `pub struct TxtProcessor { processings: Vec<Box<dyn Processing>> }`
from `src/ocp_05/src/main.rs`. -/
structure TxtProcessor where
  processings : List Processing

/-- Embeds `TxtProcessor::new`, which builds the processor with an empty
vector. -/
def TxtProcessor.new : TxtProcessor :=
  { processings := [] }

/-- Embeds `TxtProcessor::register_processing`, which pushes the given step
at the end of the vector. `&mut self` is embedded as returning the updated
processor. -/
def TxtProcessor.register_processing (p : TxtProcessor) (s : Processing) : TxtProcessor :=
  { processings := p.processings ++ [s] }

/-- Embeds the loop body of `TxtProcessor::run`:
`for processing in &mut self.processings { println!(...); processing.apply(content); }`.
The function returns the final content after the loop has threaded it
through every step in vector order. -/
def TxtProcessor.run (p : TxtProcessor) (c : EditorContent) : EditorContent :=
  p.processings.foldl (fun ctx s => s.apply ctx) c

/-- Instrumented form of the `run` loop: alongside the threaded content, it
records each step at the moment the loop invokes that step's `apply`, in
invocation order. -/
def TxtProcessor.runTrace : List Processing → EditorContent → List Processing × EditorContent
  | [], c => ([], c)
  | s :: rest, c =>
      let c1 := s.apply c
      let r := TxtProcessor.runTrace rest c1
      (s :: r.1, r.2)

/-- The `&mut self` view of `TxtProcessor::run`: the loop iterates with
`&mut` over the vector, storing each element back after its `apply` (the
element is unchanged, every repository step being a stateless unit struct),
so the call returns the post-call processor together with the final
content. -/
def TxtProcessor.runMut (p : TxtProcessor) (c : EditorContent) : TxtProcessor × EditorContent :=
  let r := TxtProcessor.runTrace p.processings c
  ({ processings := r.1 }, r.2)

/-- A processor built by `TxtProcessor::new()` followed by one
`register_processing` call per step of the list, in list order. -/
def TxtProcessor.buildFrom (steps : List Processing) : TxtProcessor :=
  steps.foldl TxtProcessor.register_processing TxtProcessor.new

/-- Embeds `LowerCase` from `src/ocp_05/src/main.rs`: `name` returns
`"LowerCase"`; `apply` lowercases the content and appends the marker line. -/
def LowerCase : Processing :=
  { name := "LowerCase"
    apply := fun c => { content := c.content.toLower ++ "\n[LowerCase OK]" } }

/-- Embeds `SpellChecker` from `src/ocp_05/src/main.rs`: `name` returns
`"SpellChecker"`; `apply` appends the marker line to the content. -/
def SpellChecker : Processing :=
  { name := "SpellChecker"
    apply := fun c => { content := c.content ++ "\n[SpellChecker OK]" } }

/-- Construction lifted to a combined state (processor, context): the pair
tracks one `TxtProcessor` being built alongside one `EditorContent` that the
construction never receives. `TxtProcessor::new()` paired with an existing
context. -/
def newW (c : EditorContent) : TxtProcessor × EditorContent :=
  (TxtProcessor.new, c)

/-- The `register_processing` call lifted to the combined state: the Rust
signature `fn register_processing(&mut self, processing: Box<dyn Processing>)`
has no access to any `EditorContent`, so the context component passes
through untouched. -/
def register_processingW (s : Processing) (w : TxtProcessor × EditorContent) : TxtProcessor × EditorContent :=
  (w.1.register_processing s, w.2)

/-- The whole construction sequence on the combined state: `new()` then one
`register_processing` per step, with a context `c` alive throughout. -/
def constructW (steps : List Processing) (c : EditorContent) : TxtProcessor × EditorContent :=
  steps.foldl (fun w s => register_processingW s w) (newW c)

end Ocp05

namespace Ocp07

/-- Embeds the `ToolChain` structure of `src/ocp_07/src/main.rs`: a chain is
either a single `Processing` (the blanket `impl<T: Processing> ToolChain for T`)
or a pair of a `Processing` head and a `ToolChain` tail
(the `impl<Head: Processing, Tail: ToolChain> ToolChain for (Head, Tail)`). -/
inductive ToolChain where
  | single (s : Processing)
  | pair (head : Processing) (tail : ToolChain)

/-- Embeds `ToolChain::apply`. For a single step, the blanket impl
delegates to `Processing::apply(self, context)`. For a pair, the tuple impl
runs `self.0.apply(context); self.1.apply(context);`: head first, then the
tail on the now-mutated context. -/
def ToolChain.apply : ToolChain → EditorContent → EditorContent
  | .single s, c => s.apply c
  | .pair head tail, c => tail.apply (head.apply c)

/-- The `&mut self` view of `ToolChain::apply`: each constituent step is
stored back unchanged (every repository step is a stateless unit struct),
so the call returns the post-call chain together with the final content. -/
def ToolChain.applyMut : ToolChain → EditorContent → ToolChain × EditorContent
  | .single s, c => (.single s, s.apply c)
  | .pair head tail, c =>
      let c1 := head.apply c
      let r := tail.applyMut c1
      (.pair head r.1, r.2)

/-- The steps of a chain, in left-to-right nesting order: the declared
execution order of the static form. -/
def ToolChain.steps : ToolChain → List Processing
  | .single s => [s]
  | .pair head tail => head :: tail.steps

/-- Embeds `pub struct TxTProcessor<T> { processings: T }` from
`src/ocp_07/src/main.rs`, at the `ToolChain` instances the crate builds. -/
structure TxTProcessor where
  processings : ToolChain

/-- Embeds `TxTProcessor::new(tools)`. -/
def TxTProcessor.new (tools : ToolChain) : TxTProcessor :=
  { processings := tools }

/-- Embeds `TxTProcessor::run`: `self.processings.apply(context)`. -/
def TxTProcessor.run (p : TxTProcessor) (c : EditorContent) : EditorContent :=
  p.processings.apply c

/-- The `&mut self` view of `TxTProcessor::run`: returns the post-call
processor together with the final content. -/
def TxTProcessor.runMut (p : TxTProcessor) (c : EditorContent) : TxTProcessor × EditorContent :=
  let r := p.processings.applyMut c
  ({ processings := r.1 }, r.2)

/-- Embeds `LowerCase` from `src/ocp_07/src/main.rs` (identical to the
`ocp_05` one). -/
def LowerCase : Processing :=
  { name := "LowerCase"
    apply := fun c => { content := c.content.toLower ++ "\n[LowerCase OK]" } }

/-- Embeds `SpellChecker` from `src/ocp_07/src/main.rs`: its `name` method
returns `"Git Integration"`, while `apply` appends the spell-checker marker
line. -/
def SpellChecker : Processing :=
  { name := "Git Integration"
    apply := fun c => { content := c.content ++ "\n[SpellChecker OK]" } }

/-- The chain `(LowerCase, SpellChecker)` that `main` passes to
`TxTProcessor::new` in `src/ocp_07/src/main.rs`. -/
def mainChain : ToolChain :=
  .pair LowerCase (.single SpellChecker)

end Ocp07

section Lemmas

/-- The instrumented run loop invokes the steps exactly in vector order:
its trace is the vector itself. -/
theorem Ocp05.TxtProcessor.runTrace_fst (steps : List Processing) (c : EditorContent) :
    (Ocp05.TxtProcessor.runTrace steps c).1 = steps := by
  induction steps generalizing c with
  | nil => rfl
  | cons s rest ih => simp [Ocp05.TxtProcessor.runTrace, ih]

/-- The instrumented run loop computes the same final content as folding
the steps over the context. -/
theorem Ocp05.TxtProcessor.runTrace_snd (steps : List Processing) (c : EditorContent) :
    (Ocp05.TxtProcessor.runTrace steps c).2 = applyEach steps c := by
  induction steps generalizing c with
  | nil => rfl
  | cons s rest ih => simp [Ocp05.TxtProcessor.runTrace, applyEach, List.foldl, ih]

/-- Registering a list of steps one by one appends them, in order, after the
processings already present. -/
theorem Ocp05.TxtProcessor.foldl_register (steps : List Processing) (p : Ocp05.TxtProcessor) :
    (steps.foldl Ocp05.TxtProcessor.register_processing p).processings
      = p.processings ++ steps := by
  induction steps generalizing p with
  | nil => simp
  | cons s rest ih =>
      simp [List.foldl, ih, Ocp05.TxtProcessor.register_processing]

/-- A processor built from a list of steps holds exactly those steps in
registration order. -/
theorem Ocp05.TxtProcessor.buildFrom_processings (steps : List Processing) :
    (Ocp05.TxtProcessor.buildFrom steps).processings = steps := by
  simp [Ocp05.TxtProcessor.buildFrom, Ocp05.TxtProcessor.foldl_register,
    Ocp05.TxtProcessor.new]

/-- The static chain's apply equals the fold of its steps in left-to-right
nesting order. -/
theorem Ocp07.ToolChain.apply_eq_applyEach (tc : Ocp07.ToolChain) (c : EditorContent) :
    tc.apply c = applyEach tc.steps c := by
  induction tc generalizing c with
  | single s => rfl
  | pair head tail ih =>
      simp [Ocp07.ToolChain.apply, Ocp07.ToolChain.steps, applyEach, List.foldl, ih]

/-- The mutable view of the chain's apply returns the chain unchanged. -/
theorem Ocp07.ToolChain.applyMut_fst (tc : Ocp07.ToolChain) (c : EditorContent) :
    (tc.applyMut c).1 = tc := by
  induction tc generalizing c with
  | single s => rfl
  | pair head tail ih => simp [Ocp07.ToolChain.applyMut, ih]

/-- The mutable view of the chain's apply computes the same content as the
plain apply. -/
theorem Ocp07.ToolChain.applyMut_snd (tc : Ocp07.ToolChain) (c : EditorContent) :
    (tc.applyMut c).2 = tc.apply c := by
  induction tc generalizing c with
  | single s => rfl
  | pair head tail ih => simp [Ocp07.ToolChain.applyMut, Ocp07.ToolChain.apply, ih]

/-- The fold of the steps over a context only depends on the steps' apply
functions, never on their names. -/
theorem applyEach_congr (l1 l2 : List Processing) (c : EditorContent)
    (h : l1.map Processing.apply = l2.map Processing.apply) :
    applyEach l1 c = applyEach l2 c := by
  induction l1 generalizing l2 c with
  | nil =>
      cases l2 with
      | nil => rfl
      | cons b bs => simp at h
  | cons a as ih =>
      cases l2 with
      | nil => simp at h
      | cons b bs =>
          simp only [List.map] at h
          obtain ⟨h1, h2⟩ := List.cons.inj h
          simp only [applyEach, List.foldl, h1]
          exact ih bs (b.apply c) h2

/-- Lifted construction never touches the context component. -/
theorem Ocp05.constructW_foldl (steps : List Processing) (w : Ocp05.TxtProcessor × EditorContent) :
    (steps.foldl (fun w s => Ocp05.register_processingW s w) w).2 = w.2 := by
  induction steps generalizing w with
  | nil => rfl
  | cons s rest ih =>
      simp only [List.foldl]
      exact ih (Ocp05.register_processingW s w)

end Lemmas

section MoreLemmas

/-- The mutable view of the registry run returns the processor unchanged. -/
theorem Ocp05.TxtProcessor.runMut_self (p : Ocp05.TxtProcessor) (c : EditorContent) :
    (p.runMut c).1 = p := by
  simp [Ocp05.TxtProcessor.runMut, Ocp05.TxtProcessor.runTrace_fst]

/-- The mutable view of the registry run computes the same final content as
the plain run. -/
theorem Ocp05.TxtProcessor.runMut_content (p : Ocp05.TxtProcessor) (c : EditorContent) :
    (p.runMut c).2 = p.run c := by
  simp [Ocp05.TxtProcessor.runMut, Ocp05.TxtProcessor.runTrace_snd, applyEach,
    Ocp05.TxtProcessor.run]

/-- The mutable view of the static run returns the processor unchanged. -/
theorem Ocp07.TxTProcessor.runMut_self_static (q : Ocp07.TxTProcessor) (c : EditorContent) :
    (q.runMut c).1 = q := by
  simp [Ocp07.TxTProcessor.runMut, Ocp07.ToolChain.applyMut_fst]

/-- The mutable view of the static run computes the same final content as
the plain run. -/
theorem Ocp07.TxTProcessor.runMut_content_static (q : Ocp07.TxTProcessor) (c : EditorContent) :
    (q.runMut c).2 = q.run c := by
  simp [Ocp07.TxTProcessor.runMut, Ocp07.ToolChain.applyMut_snd,
    Ocp07.TxTProcessor.run]

end MoreLemmas

/-- C1: for every pipeline run, static chain or dynamic registry, over any
sequence of steps and any context, `run` invokes each step's `apply` exactly
once, in declared order (registration order for the registry, left-to-right
nesting order for the chain): the instrumented registry loop's invocation
trace is exactly the registered step list, a registry built by registering
the steps holds them in that very order, its final content is the manual
one-at-a-time fold, the instrumented loop returns that very content, and
the static chain's run equals the same fold over its nesting-order steps. -/
theorem run_applies_each_step_exactly_once_in_declared_order :
    (∀ (steps : List Processing) (c : EditorContent),
      (Ocp05.TxtProcessor.runTrace steps c).1 = steps ∧
      (Ocp05.TxtProcessor.buildFrom steps).processings = steps ∧
      (Ocp05.TxtProcessor.buildFrom steps).run c = applyEach steps c ∧
      (Ocp05.TxtProcessor.runTrace steps c).2 = applyEach steps c) ∧
    (∀ (tc : Ocp07.ToolChain) (c : EditorContent),
      (Ocp07.TxTProcessor.new tc).run c = applyEach tc.steps c) := by
  constructor
  · intro steps c
    refine ⟨Ocp05.TxtProcessor.runTrace_fst steps c, ?_, ?_, ?_⟩
    · exact Ocp05.TxtProcessor.buildFrom_processings steps
    · simp [Ocp05.TxtProcessor.run, Ocp05.TxtProcessor.buildFrom_processings, applyEach]
    · exact Ocp05.TxtProcessor.runTrace_snd steps c
  · intro tc c
    simpa [Ocp07.TxTProcessor.new, Ocp07.TxTProcessor.run] using
      Ocp07.ToolChain.apply_eq_applyEach tc c

/-- C2: for every initial context and every fixed chain of steps, running
the static pipeline of `ocp_07` and running the dynamic registry of
`ocp_05` with the same steps registered in the same order produce identical
final content. -/
theorem static_chain_equals_dynamic_registry
    (tc : Ocp07.ToolChain) (c : EditorContent) :
    (Ocp07.TxTProcessor.new tc).run c
      = (Ocp05.TxtProcessor.buildFrom tc.steps).run c := by
  simp [Ocp07.TxTProcessor.new, Ocp07.TxTProcessor.run, Ocp05.TxtProcessor.run,
    Ocp05.TxtProcessor.buildFrom_processings]
  simpa [applyEach] using Ocp07.ToolChain.apply_eq_applyEach tc c

/-- C3: the static chain composition obeys exactly the two defining
equations: a single step's chain-level apply equals the step's own apply,
and a pair's apply is the head's apply followed by the tail's apply on the
resulting context. -/
theorem chain_composition_equations
    (s head : Processing) (tail : Ocp07.ToolChain) (c : EditorContent) :
    (Ocp07.ToolChain.single s).apply c = s.apply c ∧
    (Ocp07.ToolChain.pair head tail).apply c = tail.apply (head.apply c) :=
  ⟨rfl, rfl⟩

/-- C4: running a freshly constructed registry with zero registered steps
leaves every context unchanged: run on the empty registry is the identity. -/
theorem empty_registry_run_is_identity (c : EditorContent) :
    Ocp05.TxtProcessor.new.run c = c :=
  rfl

/-- C5: constructing a pipeline never mutates any context: building with
`new()` followed by any number of `register_processing` calls, with a
context alive alongside, leaves the context component exactly as it was. -/
theorem construction_leaves_context_unchanged
    (steps : List Processing) (c : EditorContent) :
    (Ocp05.constructW steps c).2 = c :=
  Ocp05.constructW_foldl steps (Ocp05.newW c)

/-- C6: running a pipeline built from the example steps twice against two
fresh equal contexts produces equal final contents, and the run carries no
pipeline-level state from one run to the next: the post-run processor is
the constructed one, both times. -/
theorem equal_contexts_give_equal_runs
    (steps : List Processing)
    (hex : ∀ s ∈ steps, s = Ocp05.LowerCase ∨ s = Ocp05.SpellChecker)
    (c1 c2 : EditorContent) (heq : c1 = c2) :
    (Ocp05.TxtProcessor.buildFrom steps).run c1
      = (Ocp05.TxtProcessor.buildFrom steps).run c2 ∧
    ((Ocp05.TxtProcessor.buildFrom steps).runMut c1).1
      = Ocp05.TxtProcessor.buildFrom steps ∧
    ((Ocp05.TxtProcessor.buildFrom steps).runMut c2).1
      = Ocp05.TxtProcessor.buildFrom steps := by
  subst heq
  exact ⟨rfl, Ocp05.TxtProcessor.runMut_self _ c1, Ocp05.TxtProcessor.runMut_self _ c1⟩

/-- Witness for C6 at the pipeline of `ocp_05`'s `main` (LowerCase then
SpellChecker) and the context `"HELLO WORLD"`. -/
theorem equal_contexts_give_equal_runs_witness :
    (∀ s ∈ [Ocp05.LowerCase, Ocp05.SpellChecker],
        s = Ocp05.LowerCase ∨ s = Ocp05.SpellChecker) ∧
    (EditorContent.mk "HELLO WORLD" = EditorContent.mk "HELLO WORLD") ∧
    ((Ocp05.TxtProcessor.buildFrom [Ocp05.LowerCase, Ocp05.SpellChecker]).run
        (EditorContent.mk "HELLO WORLD")
      = (Ocp05.TxtProcessor.buildFrom [Ocp05.LowerCase, Ocp05.SpellChecker]).run
        (EditorContent.mk "HELLO WORLD") ∧
     ((Ocp05.TxtProcessor.buildFrom [Ocp05.LowerCase, Ocp05.SpellChecker]).runMut
        (EditorContent.mk "HELLO WORLD")).1
      = Ocp05.TxtProcessor.buildFrom [Ocp05.LowerCase, Ocp05.SpellChecker] ∧
     ((Ocp05.TxtProcessor.buildFrom [Ocp05.LowerCase, Ocp05.SpellChecker]).runMut
        (EditorContent.mk "HELLO WORLD")).1
      = Ocp05.TxtProcessor.buildFrom [Ocp05.LowerCase, Ocp05.SpellChecker]) := by
  refine ⟨?_, rfl, ?_⟩
  · intro s hs
    rcases List.mem_cons.mp hs with h | hs2
    · exact Or.inl h
    · exact Or.inr (List.mem_singleton.mp hs2)
  · exact equal_contexts_give_equal_runs [Ocp05.LowerCase, Ocp05.SpellChecker]
      (by
        intro s hs
        rcases List.mem_cons.mp hs with h | hs2
        · exact Or.inl h
        · exact Or.inr (List.mem_singleton.mp hs2))
      (EditorContent.mk "HELLO WORLD") (EditorContent.mk "HELLO WORLD") rfl

/-- C7: `run` is idempotent with respect to the pipeline's own state: for
both variants the post-run pipeline equals the pre-run pipeline while the
content is the plain run's result, so the pipeline may be run repeatedly
against different contexts with unchanged behavior. -/
theorem run_preserves_pipeline_state :
    (∀ (p : Ocp05.TxtProcessor) (c : EditorContent),
      (p.runMut c).1 = p ∧ (p.runMut c).2 = p.run c) ∧
    (∀ (q : Ocp07.TxTProcessor) (c : EditorContent),
      (q.runMut c).1 = q ∧ (q.runMut c).2 = q.run c) ∧
    (∀ (p : Ocp05.TxtProcessor) (c c' : EditorContent),
      ((p.runMut c).1).run c' = p.run c') ∧
    (∀ (q : Ocp07.TxTProcessor) (c c' : EditorContent),
      ((q.runMut c).1).run c' = q.run c') := by
  refine ⟨fun p c => ⟨Ocp05.TxtProcessor.runMut_self p c,
      Ocp05.TxtProcessor.runMut_content p c⟩,
    fun q c => ⟨Ocp07.TxTProcessor.runMut_self_static q c,
      Ocp07.TxTProcessor.runMut_content_static q c⟩, ?_, ?_⟩
  · intro p c c'
    rw [Ocp05.TxtProcessor.runMut_self p c]
  · intro q c c'
    rw [Ocp07.TxTProcessor.runMut_self_static q c]

/-- C8: each example step's `name` is a fixed string, identical on every
call, and the final content `run` produces does not depend on any step's
name: pipelines whose steps have the same `apply` functions, names aside,
run identically, in both the registry and the chain form. -/
theorem name_is_diagnostic_only :
    (Ocp05.LowerCase.name = "LowerCase" ∧
     Ocp05.SpellChecker.name = "SpellChecker" ∧
     Ocp07.LowerCase.name = "LowerCase" ∧
     Ocp07.SpellChecker.name = "Git Integration") ∧
    (∀ (l1 l2 : List Processing) (c : EditorContent),
      l1.map Processing.apply = l2.map Processing.apply →
      (Ocp05.TxtProcessor.buildFrom l1).run c
        = (Ocp05.TxtProcessor.buildFrom l2).run c) ∧
    (∀ (tc1 tc2 : Ocp07.ToolChain) (c : EditorContent),
      tc1.steps.map Processing.apply = tc2.steps.map Processing.apply →
      (Ocp07.TxTProcessor.new tc1).run c = (Ocp07.TxTProcessor.new tc2).run c) := by
  refine ⟨⟨rfl, rfl, rfl, rfl⟩, ?_, ?_⟩
  · intro l1 l2 c h
    have e1 : (Ocp05.TxtProcessor.buildFrom l1).run c = applyEach l1 c := by
      simp [Ocp05.TxtProcessor.run, Ocp05.TxtProcessor.buildFrom_processings, applyEach]
    have e2 : (Ocp05.TxtProcessor.buildFrom l2).run c = applyEach l2 c := by
      simp [Ocp05.TxtProcessor.run, Ocp05.TxtProcessor.buildFrom_processings, applyEach]
    rw [e1, e2]
    exact applyEach_congr l1 l2 c h
  · intro tc1 tc2 c h
    have e1 := Ocp07.ToolChain.apply_eq_applyEach tc1 c
    have e2 := Ocp07.ToolChain.apply_eq_applyEach tc2 c
    simp only [Ocp07.TxTProcessor.new, Ocp07.TxTProcessor.run]
    rw [e1, e2]
    exact applyEach_congr _ _ c h

/-- Witness for C8: a registry holding the `ocp_05` spell checker runs
exactly like one holding a step with the same `apply` but a different name,
and likewise for single-step chains built from the `ocp_07` spell checker. -/
theorem name_is_diagnostic_only_witness :
    ([Ocp05.SpellChecker].map Processing.apply
      = [Processing.mk "Renamed" Ocp05.SpellChecker.apply].map Processing.apply) ∧
    ((Ocp07.ToolChain.single Ocp07.SpellChecker).steps.map Processing.apply
      = (Ocp07.ToolChain.single
          (Processing.mk "SpellChecker" Ocp07.SpellChecker.apply)).steps.map
            Processing.apply) ∧
    (Ocp05.TxtProcessor.buildFrom [Ocp05.SpellChecker]).run (EditorContent.mk "x")
      = (Ocp05.TxtProcessor.buildFrom
          [Processing.mk "Renamed" Ocp05.SpellChecker.apply]).run
            (EditorContent.mk "x") ∧
    (Ocp07.TxTProcessor.new (Ocp07.ToolChain.single Ocp07.SpellChecker)).run
        (EditorContent.mk "x")
      = (Ocp07.TxTProcessor.new (Ocp07.ToolChain.single
          (Processing.mk "SpellChecker" Ocp07.SpellChecker.apply))).run
            (EditorContent.mk "x") :=
  ⟨rfl, rfl,
    name_is_diagnostic_only.2.1 [Ocp05.SpellChecker]
      [Processing.mk "Renamed" Ocp05.SpellChecker.apply] (EditorContent.mk "x") rfl,
    name_is_diagnostic_only.2.2 (Ocp07.ToolChain.single Ocp07.SpellChecker)
      (Ocp07.ToolChain.single (Processing.mk "SpellChecker" Ocp07.SpellChecker.apply))
      (EditorContent.mk "x") rfl⟩

/-- C9: running `ocp_07`'s pipeline `TxTProcessor::new((LowerCase, SpellChecker))`
on content `"HELLO WORLD"` yields `"hello world"`, a newline, the LowerCase
marker, a newline, and the SpellChecker marker: LowerCase acts first,
SpellChecker appends after. -/
theorem ocp07_main_pipeline_on_hello_world :
    ((Ocp07.TxTProcessor.new Ocp07.mainChain).run (EditorContent.mk "HELLO WORLD")).content
      = "hello world" ++ "\n" ++ "[LowerCase OK]" ++ "\n" ++ "[SpellChecker OK]" := by
  simp only [Ocp07.TxTProcessor.new, Ocp07.TxTProcessor.run, Ocp07.mainChain,
    Ocp07.ToolChain.apply, Ocp07.LowerCase, Ocp07.SpellChecker,
    String.toLower, String.map_eq]
  decide

/-- C10: in `ocp_07`, `SpellChecker`'s `name` method returns the string
`"Git Integration"`, a label that differs from the type's own name
`"SpellChecker"`. -/
theorem ocp07_spellchecker_named_git_integration :
    Ocp07.SpellChecker.name = "Git Integration" ∧
    Ocp07.SpellChecker.name ≠ "SpellChecker" := by
  refine ⟨rfl, ?_⟩
  decide
